import Mathlib

/-!
Verification development for the multiplayer networking core
(command validation, command buffering, prediction/reconciliation,
snapshotting, entity interpolation, projectile synchronization).

The definitions below are shallow embeddings of the C++ sources under
`source/`.  Machine integers (`uint64_t`, `uint32_t`) are modelled as `Nat`
with explicit wrap-around (`% 2^64`) exactly where the C++ arithmetic can
wrap; `double` values are modelled as real numbers.  Classes that are only
declared but whose definitions are not part of the sources here
(`EsUuid`, `Point`, `Angle`, `Ship`, `Projectile`, `Visual`, `Flotsam`,
`AsteroidField`, `Command`) are modelled from the specification, as noted
at each definition.
-/

namespace ES

/-- Wrap-around `uint64_t` subtraction `a - b` (two's complement), for
`a b < 2^64`: yields `a - b` when `b ≤ a` and `a - b + 2^64` otherwise. -/
def sub64 (a b : Nat) : Nat :=
  (a + 2 ^ 64 - b % 2 ^ 64) % 2 ^ 64

/-- Wrap-around `uint64_t` addition. -/
def add64 (a b : Nat) : Nat :=
  (a + b) % 2 ^ 64

theorem sub64_eq_sub {a b : Nat} (hb : b ≤ a) (ha : a < 2 ^ 64) :
    sub64 a b = a - b := by
  unfold sub64
  rw [Nat.mod_eq_of_lt (Nat.lt_of_le_of_lt hb ha)]
  have h1 : a + 2 ^ 64 - b = (a - b) + 2 ^ 64 := by omega
  rw [h1, Nat.add_mod_right, Nat.mod_eq_of_lt (by omega)]

theorem add64_eq_add {a b : Nat} (h : a + b < 2 ^ 64) :
    add64 a b = a + b := by
  unfold add64
  exact Nat.mod_eq_of_lt h

/-- Modelled from the spec: `EsUuid` (not under the provided sources) is an
identifier with a string form; the only operation the multiplayer code uses
on it is `ToString()` (and ordered-map keying).  We carry the string form
directly. -/
structure EsUuid where
  str : String
deriving DecidableEq, Repr

/-- Modelled from the spec: `Point` (not under the provided sources) is a
2-D real vector (two doubles), with componentwise addition and
subtraction. -/
abbrev Point : Type := ℝ × ℝ

/-- `Point::Length()`: Euclidean norm (modelled from the spec's 2-D vector). -/
noncomputable def Point.length (p : Point) : ℝ :=
  Real.sqrt (p.1 ^ 2 + p.2 ^ 2)

/-- Componentwise scaling `p * a` of a `Point` by a double. -/
noncomputable def Point.scale (p : Point) (a : ℝ) : Point :=
  (p.1 * a, p.2 * a)

theorem Point.length_scale (p : Point) (a : ℝ) (ha : 0 ≤ a) :
    Point.length (Point.scale p a) = a * Point.length p := by
  unfold Point.length Point.scale
  rw [show (p.1 * a) ^ 2 + (p.2 * a) ^ 2 = a ^ 2 * (p.1 ^ 2 + p.2 ^ 2) by ring]
  rw [Real.sqrt_mul (sq_nonneg a), Real.sqrt_sq ha]

/-- `PlayerCommand` (PlayerCommand.h): a single player input command.  The
`Command` control word (class not under the provided sources) is modelled
from the spec as an opaque control word. -/
structure PlayerCommand where
  playerUUID : EsUuid
  gameTick : Nat
  command : Nat
  targetPoint : Point
  hasTargetPoint : Bool
  sequenceNumber : Nat

/-- `PlayerCommand::operator==`: equality is (player, tick, sequence). -/
def PlayerCommand.eq (a b : PlayerCommand) : Bool :=
  a.playerUUID.str == b.playerUUID.str &&
    a.gameTick == b.gameTick && a.sequenceNumber == b.sequenceNumber

/-- `PlayerCommand::IsValid` (PlayerCommand.h lines 75-86): non-empty player
UUID and game tick at most the sanity ceiling 10⁹. -/
def PlayerCommand.IsValid (c : PlayerCommand) : Bool :=
  !c.playerUUID.str.isEmpty && !(c.gameTick > 1000000000)

/-- `CommandValidator::Result` (CommandValidator.h). -/
inductive VResult where
  | VALID
  | INVALID_PLAYER
  | INVALID_TICK
  | TOO_OLD
  | TOO_FUTURE
  | RATE_LIMITED
  | MALFORMED
deriving DecidableEq, Repr

/-- `CommandValidator::RateLimitData` (CommandValidator.h). -/
structure RateLimitData where
  lastCommandTime : Nat := 0
  commandsInWindow : Nat := 0
  windowStartTime : Nat := 0
deriving DecidableEq, Repr

/-- `RATE_LIMIT_WINDOW_MS` (CommandValidator.h). -/
def RATE_LIMIT_WINDOW_MS : Nat := 1000

/-- `CommandValidator` state.  The `std::map<EsUuid, RateLimitData>` is
modelled as a total function with default-constructed entries for absent
keys, matching the default-construction behaviour of `operator[]`. -/
structure CommandValidator where
  playerRateLimits : EsUuid → RateLimitData
  maxPastTicks : Nat
  maxFutureTicks : Nat
  maxCommandsPerSecond : Nat
  totalCommands : Nat
  rejectedCommands : Nat

/-- A freshly constructed `CommandValidator` with the defaults from
CommandValidator.h (maxPastTicks 60, maxFutureTicks 60,
maxCommandsPerSecond 120). -/
def CommandValidator.init : CommandValidator where
  playerRateLimits := fun _ => {}
  maxPastTicks := 60
  maxFutureTicks := 60
  maxCommandsPerSecond := 120
  totalCommands := 0
  rejectedCommands := 0

/-- `CommandValidator::CheckRateLimit` (CommandValidator.cpp lines 136-159).
Returns the updated validator and whether the command passed the limit.
`currentTime - data.windowStartTime` is `uint64_t` subtraction.  The final
comparison `count * 1000.0 / windowMs > maxCommandsPerSecond` is exact
double arithmetic on integers (and `RATE_LIMIT_WINDOW_MS` is the constant
1000, so the quotient is the integer `count * 1000 / 1000`); it is therefore
embedded as the equal integer computation. -/
def CommandValidator.CheckRateLimit (v : CommandValidator) (uuid : EsUuid)
    (currentTime : Nat) : CommandValidator × Bool :=
  let data := v.playerRateLimits uuid
  let data :=
    if sub64 currentTime data.windowStartTime ≥ RATE_LIMIT_WINDOW_MS then
      { data with windowStartTime := currentTime, commandsInWindow := 0 }
    else data
  let data := { data with
    commandsInWindow := data.commandsInWindow + 1
    lastCommandTime := currentTime }
  let v := { v with playerRateLimits := Function.update v.playerRateLimits uuid data }
  let commandsPerSecond : Nat := data.commandsInWindow * 1000 / RATE_LIMIT_WINDOW_MS
  if commandsPerSecond > v.maxCommandsPerSecond then (v, false) else (v, true)

/-- `CommandValidator::ValidateCommand` (CommandValidator.cpp lines 30-75).
`currentTime` is the wall-clock milliseconds the source reads from
`steady_clock`, passed here as an explicit input.  The tick-window
comparisons use `uint64_t` arithmetic (`sub64`/`add64`). -/
def CommandValidator.ValidateCommand (v : CommandValidator)
    (command : PlayerCommand) (currentTick currentTime : Nat) :
    CommandValidator × VResult :=
  let v := { v with totalCommands := v.totalCommands + 1 }
  if !command.IsValid then
    ({ v with rejectedCommands := v.rejectedCommands + 1 }, .MALFORMED)
  else if command.playerUUID.str.isEmpty then
    ({ v with rejectedCommands := v.rejectedCommands + 1 }, .INVALID_PLAYER)
  else if command.gameTick < sub64 currentTick v.maxPastTicks then
    ({ v with rejectedCommands := v.rejectedCommands + 1 }, .TOO_OLD)
  else if command.gameTick > add64 currentTick v.maxFutureTicks then
    ({ v with rejectedCommands := v.rejectedCommands + 1 }, .TOO_FUTURE)
  else
    let r := v.CheckRateLimit command.playerUUID currentTime
    if !r.2 then
      ({ r.1 with rejectedCommands := r.1.rejectedCommands + 1 }, .RATE_LIMITED)
    else
      (r.1, .VALID)

/-- A well-formed test command from player "p" with sequence number 1 at the
given tick. -/
def cmdAt (t : Nat) : PlayerCommand :=
  ⟨⟨"p"⟩, t, 0, ((0 : ℝ), (0 : ℝ)), false, 1⟩

/-- C1 (amended).  For a structurally valid command, the verdict is
`TOO_OLD` exactly when its tick is below the wrap-around (`uint64_t`)
difference `currentTick - maxPastTicks`, and `TOO_FUTURE` exactly when it is
not `TOO_OLD` and its tick exceeds the wrap-around sum
`currentTick + maxFutureTicks`; whenever `maxPastTicks ≤ currentTick` and no
overflow occurs these coincide with the spec's plain-integer window. -/
theorem validateCommand_tick_window (v : CommandValidator) (cmd : PlayerCommand)
    (ct ctime : Nat) (hvalid : cmd.IsValid = true) :
    ((v.ValidateCommand cmd ct ctime).2 = .TOO_OLD ↔
        cmd.gameTick < sub64 ct v.maxPastTicks) ∧
    ((v.ValidateCommand cmd ct ctime).2 = .TOO_FUTURE ↔
        (¬ cmd.gameTick < sub64 ct v.maxPastTicks ∧
          add64 ct v.maxFutureTicks < cmd.gameTick)) ∧
    (v.maxPastTicks ≤ ct → ct < 2 ^ 64 → ct + v.maxFutureTicks < 2 ^ 64 →
      (((v.ValidateCommand cmd ct ctime).2 = .TOO_OLD) ↔
          cmd.gameTick + v.maxPastTicks < ct) ∧
      (((v.ValidateCommand cmd ct ctime).2 = .TOO_FUTURE) ↔
          (¬ cmd.gameTick + v.maxPastTicks < ct ∧
            ct + v.maxFutureTicks < cmd.gameTick))) := by
  have hempty : cmd.playerUUID.str.isEmpty = false := by
    simp only [PlayerCommand.IsValid, Bool.and_eq_true, Bool.not_eq_true'] at hvalid
    exact hvalid.1
  have h1 : (v.ValidateCommand cmd ct ctime).2 = .TOO_OLD ↔
      cmd.gameTick < sub64 ct v.maxPastTicks := by
    simp only [CommandValidator.ValidateCommand, hvalid, hempty]
    split_ifs with hold hfut hrate <;> simp_all
  have h2 : (v.ValidateCommand cmd ct ctime).2 = .TOO_FUTURE ↔
      (¬ cmd.gameTick < sub64 ct v.maxPastTicks ∧
        add64 ct v.maxFutureTicks < cmd.gameTick) := by
    simp only [CommandValidator.ValidateCommand, hvalid, hempty]
    split_ifs with hold hfut hrate <;> simp_all
  refine ⟨h1, h2, fun hp hc hf => ?_⟩
  rw [h1, h2, sub64_eq_sub hp hc, add64_eq_add hf]
  constructor
  · omega
  · constructor <;> (intro h; omega)

/-- C1 witness: the spec's concrete examples at `currentTick = 1000` with
the default margins (60): tick 939 is `TOO_OLD`, tick 1061 is `TOO_FUTURE`,
ticks 940 and 1060 are not rejected for their tick. -/
theorem validateCommand_tick_window_witness :
    (CommandValidator.init.ValidateCommand (cmdAt 939) 1000 0).2 = .TOO_OLD ∧
    (CommandValidator.init.ValidateCommand (cmdAt 1061) 1000 0).2 = .TOO_FUTURE ∧
    (CommandValidator.init.ValidateCommand (cmdAt 940) 1000 0).2 ≠ .TOO_OLD ∧
    (CommandValidator.init.ValidateCommand (cmdAt 940) 1000 0).2 ≠ .TOO_FUTURE ∧
    (CommandValidator.init.ValidateCommand (cmdAt 1060) 1000 0).2 ≠ .TOO_OLD ∧
    (CommandValidator.init.ValidateCommand (cmdAt 1060) 1000 0).2 ≠ .TOO_FUTURE := by
  refine ⟨?_, ?_, ?_, ?_, ?_, ?_⟩
  · exact (validateCommand_tick_window CommandValidator.init (cmdAt 939) 1000 0
      (by decide)).1.mpr (by decide)
  · exact (validateCommand_tick_window CommandValidator.init (cmdAt 1061) 1000 0
      (by decide)).2.1.mpr (by decide)
  · intro h
    exact absurd ((validateCommand_tick_window CommandValidator.init (cmdAt 940) 1000 0
      (by decide)).1.mp h) (by decide)
  · intro h
    exact absurd ((validateCommand_tick_window CommandValidator.init (cmdAt 940) 1000 0
      (by decide)).2.1.mp h) (by decide)
  · intro h
    exact absurd ((validateCommand_tick_window CommandValidator.init (cmdAt 1060) 1000 0
      (by decide)).1.mp h) (by decide)
  · intro h
    exact absurd ((validateCommand_tick_window CommandValidator.init (cmdAt 1060) 1000 0
      (by decide)).2.1.mp h) (by decide)

/-- C1 counterexample.  The claim asserts the plain-integer window for every
`currentTick`, including `currentTick < maxPastTicks`.  At `currentTick = 0`
with the default margin 60, a valid command at tick 0 satisfies
`tick < currentTick − maxPastTicks` in no plain-integer sense (0 < −60 is
false), yet the `uint64_t` subtraction wraps and the validator classifies it
`TOO_OLD`. -/
theorem validateCommand_tick_window_counterexample :
    (CommandValidator.init.ValidateCommand (cmdAt 0) 0 0).2 = .TOO_OLD ∧
    ¬ (((cmdAt 0).gameTick : ℤ) < (0 : ℤ) - 60) := by
  constructor
  · decide
  · decide

/-- C10.  `validateCommand` never returns `INVALID_PLAYER`: the dedicated
empty-UUID branch is dead because an empty player UUID already fails the
structural `IsValid()` check and yields `MALFORMED`. -/
theorem validateCommand_never_invalid_player (v : CommandValidator)
    (cmd : PlayerCommand) (ct ctime : Nat) :
    (v.ValidateCommand cmd ct ctime).2 ≠ VResult.INVALID_PLAYER ∧
    (cmd.playerUUID.str.isEmpty = true →
      (v.ValidateCommand cmd ct ctime).2 = VResult.MALFORMED) := by
  constructor
  · by_cases hvalid : cmd.IsValid = true
    · have hempty : cmd.playerUUID.str.isEmpty = false := by
        simp only [PlayerCommand.IsValid, Bool.and_eq_true, Bool.not_eq_true'] at hvalid
        exact hvalid.1
      simp only [CommandValidator.ValidateCommand, hvalid, hempty]
      split_ifs <;> simp_all
    · have hvalid' : cmd.IsValid = false := by
        cases h : cmd.IsValid
        · rfl
        · exact absurd h hvalid
      simp [CommandValidator.ValidateCommand, hvalid']
  · intro hempty
    have hvalid : cmd.IsValid = false := by
      simp [PlayerCommand.IsValid, hempty]
    simp [CommandValidator.ValidateCommand, hvalid]

/-- C10 witness: at a concrete malformed (empty-UUID) command the validator
answers `MALFORMED`, not `INVALID_PLAYER`. -/
theorem validateCommand_never_invalid_player_witness :
    (CommandValidator.init.ValidateCommand
      ⟨⟨""⟩, 5, 0, ((0 : ℝ), (0 : ℝ)), false, 1⟩ 0 0).2 ≠ VResult.INVALID_PLAYER ∧
    (CommandValidator.init.ValidateCommand
      ⟨⟨""⟩, 5, 0, ((0 : ℝ), (0 : ℝ)), false, 1⟩ 0 0).2 = VResult.MALFORMED := by
  refine ⟨(validateCommand_never_invalid_player CommandValidator.init _ 0 0).1, ?_⟩
  exact (validateCommand_never_invalid_player CommandValidator.init _ 0 0).2 (by decide)

/-- Run the validator over a trace of calls `(command, currentTick,
currentTime)`, collecting the verdicts in order. -/
def runValidator (v : CommandValidator) :
    List (PlayerCommand × Nat × Nat) → CommandValidator × List VResult
  | [] => (v, [])
  | c :: cs =>
    let r := v.ValidateCommand c.1 c.2.1 c.2.2
    let rest := runValidator r.1 cs
    (rest.1, r.2 :: rest.2)

/-- A call of `validateCommand` that passes the structural and tick-window
checks, so that only rate limiting decides its verdict. -/
def eligibleCall (v : CommandValidator) (c : PlayerCommand × Nat × Nat) : Prop :=
  c.1.IsValid = true ∧
  ¬ c.1.gameTick < sub64 c.2.1 v.maxPastTicks ∧
  ¬ add64 c.2.1 v.maxFutureTicks < c.1.gameTick

instance (v : CommandValidator) (c : PlayerCommand × Nat × Nat) :
    Decidable (eligibleCall v c) := by
  unfold eligibleCall
  infer_instance

/-- `CheckRateLimit` when the call falls inside the player's current window
(no reset): the counter increments, the window start is unchanged, and the
call passes exactly while the incremented counter stays within
`maxCommandsPerSecond`. -/
theorem checkRateLimit_no_reset (v : CommandValidator) (p : EsUuid) (t : Nat)
    (hwin : sub64 t (v.playerRateLimits p).windowStartTime < RATE_LIMIT_WINDOW_MS) :
    v.CheckRateLimit p t =
      ({ v with playerRateLimits := (Function.update v.playerRateLimits p
          (⟨t, (v.playerRateLimits p).commandsInWindow + 1,
            (v.playerRateLimits p).windowStartTime⟩ : RateLimitData)) },
        decide ((v.playerRateLimits p).commandsInWindow + 1 ≤ v.maxCommandsPerSecond)) := by
  have hnores : ¬ sub64 t (v.playerRateLimits p).windowStartTime ≥
      RATE_LIMIT_WINDOW_MS := by omega
  simp only [CommandValidator.CheckRateLimit, if_neg hnores]
  have hdiv : ((v.playerRateLimits p).commandsInWindow + 1) * 1000 /
      RATE_LIMIT_WINDOW_MS = (v.playerRateLimits p).commandsInWindow + 1 := by
    simp only [RATE_LIMIT_WINDOW_MS]
    exact Nat.mul_div_cancel _ (by norm_num)
  rw [hdiv]
  split_ifs with h
  · rw [decide_eq_false (by omega)]
  · rw [decide_eq_true (by omega)]

/-- One step of `validateCommand` on an eligible call inside the player's
current rate-limit window (no reset): the command counter increments, the
window start is unchanged, the configuration is untouched, and the verdict
is `VALID` exactly while the incremented counter stays within
`maxCommandsPerSecond`. -/
theorem validateCommand_eligible_step (v : CommandValidator)
    (c : PlayerCommand × Nat × Nat) (helig : eligibleCall v c)
    (hwin : sub64 c.2.2 (v.playerRateLimits c.1.playerUUID).windowStartTime <
      RATE_LIMIT_WINDOW_MS) :
    (v.ValidateCommand c.1 c.2.1 c.2.2).2 =
      (if (v.playerRateLimits c.1.playerUUID).commandsInWindow + 1 ≤
          v.maxCommandsPerSecond then VResult.VALID else VResult.RATE_LIMITED) ∧
    (v.ValidateCommand c.1 c.2.1 c.2.2).1.playerRateLimits c.1.playerUUID =
      (⟨c.2.2, (v.playerRateLimits c.1.playerUUID).commandsInWindow + 1,
        (v.playerRateLimits c.1.playerUUID).windowStartTime⟩ : RateLimitData) ∧
    (∀ q, q ≠ c.1.playerUUID →
      (v.ValidateCommand c.1 c.2.1 c.2.2).1.playerRateLimits q = v.playerRateLimits q) ∧
    (v.ValidateCommand c.1 c.2.1 c.2.2).1.maxPastTicks = v.maxPastTicks ∧
    (v.ValidateCommand c.1 c.2.1 c.2.2).1.maxFutureTicks = v.maxFutureTicks ∧
    (v.ValidateCommand c.1 c.2.1 c.2.2).1.maxCommandsPerSecond = v.maxCommandsPerSecond := by
  obtain ⟨hvalid, hold, hfut⟩ := helig
  have hempty : c.1.playerUUID.str.isEmpty = false := by
    simp only [PlayerCommand.IsValid, Bool.and_eq_true, Bool.not_eq_true'] at hvalid
    exact hvalid.1
  have hcrl := checkRateLimit_no_reset
    { v with totalCommands := v.totalCommands + 1 } c.1.playerUUID c.2.2 hwin
  have hmain : v.ValidateCommand c.1 c.2.1 c.2.2 =
      (if (v.playerRateLimits c.1.playerUUID).commandsInWindow + 1 ≤
          v.maxCommandsPerSecond then
        ({ v with
            totalCommands := v.totalCommands + 1
            playerRateLimits := (Function.update v.playerRateLimits c.1.playerUUID
              (⟨c.2.2, (v.playerRateLimits c.1.playerUUID).commandsInWindow + 1,
                (v.playerRateLimits c.1.playerUUID).windowStartTime⟩ : RateLimitData)) },
          VResult.VALID)
      else
        ({ v with
            totalCommands := v.totalCommands + 1
            rejectedCommands := v.rejectedCommands + 1
            playerRateLimits := (Function.update v.playerRateLimits c.1.playerUUID
              (⟨c.2.2, (v.playerRateLimits c.1.playerUUID).commandsInWindow + 1,
                (v.playerRateLimits c.1.playerUUID).windowStartTime⟩ : RateLimitData)) },
          VResult.RATE_LIMITED)) := by
    simp only [CommandValidator.ValidateCommand, hvalid, hempty, if_neg hold,
      if_neg hfut, hcrl, Bool.not_true, Bool.false_eq_true]
    by_cases hc : (v.playerRateLimits c.1.playerUUID).commandsInWindow + 1 ≤
        v.maxCommandsPerSecond
    · rw [decide_eq_true hc]
      simp [hc]
    · rw [decide_eq_false hc]
      simp [hc]
  rw [hmain]
  by_cases hc : (v.playerRateLimits c.1.playerUUID).commandsInWindow + 1 ≤
      v.maxCommandsPerSecond
  · rw [if_pos hc]
    exact ⟨(if_pos hc).symm, by simp, fun q hq => by simp [Function.update_noteq hq],
      rfl, rfl, rfl⟩
  · rw [if_neg hc]
    exact ⟨(if_neg hc).symm, by simp, fun q hq => by simp [Function.update_noteq hq],
      rfl, rfl, rfl⟩

/-- C8 (amended).  Rate limiting is a 1-second tumbling window per player:
for any sequence of otherwise-valid calls by player `p` that all fall inside
the player's current window (so no reset fires), starting from a window
counter `c` the validator answers `VALID` for exactly the first
`maxCommandsPerSecond − c` calls and `RATE_LIMITED` for every later call of
the sequence. -/
theorem runValidator_single_window (p : EsUuid) :
    ∀ (trace : List (PlayerCommand × Nat × Nat)) (v : CommandValidator),
    (∀ c ∈ trace, c.1.playerUUID = p) →
    (∀ c ∈ trace, eligibleCall v c) →
    (∀ c ∈ trace, sub64 c.2.2 (v.playerRateLimits p).windowStartTime <
      RATE_LIMIT_WINDOW_MS) →
    (runValidator v trace).2 =
      List.replicate (min trace.length
        (v.maxCommandsPerSecond - (v.playerRateLimits p).commandsInWindow))
        VResult.VALID ++
      List.replicate (trace.length -
        (v.maxCommandsPerSecond - (v.playerRateLimits p).commandsInWindow))
        VResult.RATE_LIMITED := by
  intro trace
  induction trace with
  | nil => intro v _ _ _; simp [runValidator]
  | cons c cs ih =>
    intro v hp helig hwin
    have hpc : c.1.playerUUID = p := hp c (List.mem_cons_self c cs)
    have hstep := validateCommand_eligible_step v c (helig c (List.mem_cons_self c cs))
      (by rw [hpc]; exact hwin c (List.mem_cons_self c cs))
    rw [hpc] at hstep
    obtain ⟨hres, hupd, hother, hmp, hmf, hmc⟩ := hstep
    have hrun : (runValidator v (c :: cs)).2 =
        (v.ValidateCommand c.1 c.2.1 c.2.2).2 ::
          (runValidator (v.ValidateCommand c.1 c.2.1 c.2.2).1 cs).2 := rfl
    have hih := ih (v.ValidateCommand c.1 c.2.1 c.2.2).1
      (fun x hx => hp x (List.mem_cons_of_mem c hx))
      (fun x hx => by
        have h := helig x (List.mem_cons_of_mem c hx)
        unfold eligibleCall at h ⊢
        rw [hmp, hmf]
        exact h)
      (fun x hx => by
        rw [hupd]
        exact hwin x (List.mem_cons_of_mem c hx))
    rw [hrun, hih, hupd, hmc, hres]
    by_cases hc : (v.playerRateLimits p).commandsInWindow + 1 ≤ v.maxCommandsPerSecond
    · rw [if_pos hc]
      have e1 : min (cs.length + 1)
          (v.maxCommandsPerSecond - (v.playerRateLimits p).commandsInWindow) =
          (min cs.length (v.maxCommandsPerSecond -
            ((v.playerRateLimits p).commandsInWindow + 1))) + 1 := by omega
      have e2 : (cs.length + 1) -
          (v.maxCommandsPerSecond - (v.playerRateLimits p).commandsInWindow) =
          cs.length - (v.maxCommandsPerSecond -
            ((v.playerRateLimits p).commandsInWindow + 1)) := by omega
      simp only [List.length_cons, e1, e2, List.replicate_succ, List.cons_append]
    · rw [if_neg hc]
      have e1 : v.maxCommandsPerSecond - (v.playerRateLimits p).commandsInWindow = 0 := by
        omega
      have e2 : v.maxCommandsPerSecond -
          ((v.playerRateLimits p).commandsInWindow + 1) = 0 := by omega
      simp only [List.length_cons, e1, e2, Nat.min_zero, Nat.sub_zero,
        List.replicate_zero, List.nil_append, List.replicate_succ]

/-- A fixed eligible validator call (player "p", tick 1000 against
currentTick 1000) at wall-clock time `t` milliseconds. -/
def rateCall (t : Nat) : PlayerCommand × Nat × Nat := (cmdAt 1000, 1000, t)

/-- C8 witness: with the limit lowered to 2 per second, three in-window
calls yield `VALID`, `VALID`, `RATE_LIMITED`. -/
theorem runValidator_single_window_witness :
    (runValidator { CommandValidator.init with maxCommandsPerSecond := 2 }
      [rateCall 0, rateCall 1, rateCall 2]).2 =
      [VResult.VALID, VResult.VALID, VResult.RATE_LIMITED] := by
  rw [runValidator_single_window ⟨"p"⟩ [rateCall 0, rateCall 1, rateCall 2]
    { CommandValidator.init with maxCommandsPerSecond := 2 }
    (by decide) (by decide) (by decide)]
  decide

set_option maxRecDepth 40000 in
/-- C8 counterexample.  The claim bounds the number of `VALID` verdicts by
`maxCommandsPerSecond` (120) across ANY 1-second wall-clock window, but the
window is tumbling, not sliding: 120 commands at time 900 ms exhaust the
window that began at 0 ms, and a 121st command at time 1000 ms starts a
fresh window and is also `VALID` — 121 `VALID` verdicts for one player
within the 1-second span [900, 1900). -/
theorem runValidator_sliding_window_counterexample :
    (∀ c ∈ List.replicate 120 (rateCall 900) ++ [rateCall 1000],
      900 ≤ c.2.2 ∧ c.2.2 < 1900) ∧
    CommandValidator.init.maxCommandsPerSecond = 120 ∧
    (runValidator CommandValidator.init
      (List.replicate 120 (rateCall 900) ++ [rateCall 1000])).2.count
        VResult.VALID = 121 := by
  refine ⟨by decide, rfl, by decide⟩

/-- `CommandBuffer` state (CommandBuffer.h).  The tick-keyed
`std::multimap` is modelled as a key-sorted list of `(tick, command)` pairs
into which insertion happens at the upper bound of the equal-key range
(`emplace` semantics: a new element goes after all existing elements with
the same key); the per-player `std::map` is a total function defaulting to
the empty list. -/
structure CommandBuffer where
  commandQueue : List (Nat × PlayerCommand)
  playerCommands : EsUuid → List PlayerCommand
  maxBufferSize : Nat

/-- A freshly constructed `CommandBuffer` (default cap 10000). -/
def CommandBuffer.empty : CommandBuffer :=
  ⟨[], fun _ => [], 10000⟩

/-- `std::multimap::emplace` on the sorted pair list: insert after every
element whose key is `≤` the new key (upper bound). -/
def insertUpper (e : Nat × PlayerCommand) :
    List (Nat × PlayerCommand) → List (Nat × PlayerCommand)
  | [] => [e]
  | x :: xs => if x.1 ≤ e.1 then x :: insertUpper e xs else e :: x :: xs

/-- `CommandBuffer::IsDuplicate` (CommandBuffer.cpp lines 183-197). -/
def CommandBuffer.IsDuplicate (b : CommandBuffer) (c : PlayerCommand) : Bool :=
  (b.playerCommands c.playerUUID).any fun existing => existing.eq c

/-- `CommandBuffer::AddCommand` (CommandBuffer.cpp lines 30-51): reject
malformed commands, a full buffer, and duplicates; otherwise insert into
the tick-keyed queue and append to the player's list. -/
def CommandBuffer.AddCommand (b : CommandBuffer) (c : PlayerCommand) :
    CommandBuffer × Bool :=
  if !c.IsValid then (b, false)
  else if b.commandQueue.length ≥ b.maxBufferSize then (b, false)
  else if b.IsDuplicate c then (b, false)
  else
    ({ b with
        commandQueue := insertUpper (c.gameTick, c) b.commandQueue
        playerCommands := (Function.update b.playerCommands c.playerUUID
          (b.playerCommands c.playerUUID ++ [c])) },
      true)

/-- `CommandBuffer::GetCommandsForTick` (CommandBuffer.cpp lines 55-65):
`equal_range` on the key-sorted multimap yields exactly the stored entries
whose key equals `gameTick`, in stored order. -/
def CommandBuffer.GetCommandsForTick (b : CommandBuffer) (t : Nat) :
    List PlayerCommand :=
  (b.commandQueue.filter fun x => x.1 == t).map Prod.snd

/-- Feed a list of commands to `addCommand` in order. -/
def addMany (b : CommandBuffer) : List PlayerCommand → CommandBuffer
  | [] => b
  | c :: cs => addMany (b.AddCommand c).1 cs

/-- The subsequence of a command list that `addCommand` accepts, in
insertion order. -/
def acceptedOf (b : CommandBuffer) : List PlayerCommand → List PlayerCommand
  | [] => []
  | c :: cs =>
    (if (b.AddCommand c).2 then [c] else []) ++ acceptedOf (b.AddCommand c).1 cs

theorem mem_insertUpper {e y : Nat × PlayerCommand}
    {l : List (Nat × PlayerCommand)} (h : y ∈ insertUpper e l) :
    y = e ∨ y ∈ l := by
  induction l with
  | nil =>
    rw [insertUpper] at h
    exact Or.inl (List.mem_singleton.mp h)
  | cons x xs ih =>
    by_cases hle : x.1 ≤ e.1
    · rw [insertUpper, if_pos hle] at h
      rcases List.mem_cons.mp h with hx | hr
      · exact Or.inr (by rw [hx]; exact List.mem_cons_self x xs)
      · rcases ih hr with h1 | h2
        · exact Or.inl h1
        · exact Or.inr (List.mem_cons_of_mem x h2)
    · rw [insertUpper, if_neg hle] at h
      rcases List.mem_cons.mp h with hx | hr
      · exact Or.inl hx
      · exact Or.inr hr

theorem insertUpper_pairwise (e : Nat × PlayerCommand)
    (l : List (Nat × PlayerCommand))
    (h : l.Pairwise fun x y => x.1 ≤ y.1) :
    (insertUpper e l).Pairwise fun x y => x.1 ≤ y.1 := by
  induction l with
  | nil => simp [insertUpper]
  | cons x xs ih =>
    rw [List.pairwise_cons] at h
    obtain ⟨hx, hxs⟩ := h
    by_cases hle : x.1 ≤ e.1
    · rw [insertUpper, if_pos hle, List.pairwise_cons]
      refine ⟨?_, ih hxs⟩
      intro y hy
      rcases mem_insertUpper hy with hye | hymem
      · rw [hye]; exact hle
      · exact hx y hymem
    · rw [insertUpper, if_neg hle, List.pairwise_cons]
      refine ⟨?_, by rw [List.pairwise_cons]; exact ⟨hx, hxs⟩⟩
      intro y hy
      rcases List.mem_cons.mp hy with hye | hymem
      · rw [hye]; omega
      · have := hx y hymem; omega

theorem insertUpper_filter (e : Nat × PlayerCommand) (t : Nat)
    (l : List (Nat × PlayerCommand))
    (h : l.Pairwise fun x y => x.1 ≤ y.1) :
    (insertUpper e l).filter (fun x => x.1 == t) =
      if e.1 = t then (l.filter fun x => x.1 == t) ++ [e]
      else l.filter fun x => x.1 == t := by
  induction l with
  | nil =>
    rw [insertUpper]
    by_cases het : e.1 = t
    · simp [het]
    · simp [List.filter_cons, het]
  | cons x xs ih =>
    rw [List.pairwise_cons] at h
    obtain ⟨hx, hxs⟩ := h
    by_cases hle : x.1 ≤ e.1
    · rw [insertUpper, if_pos hle, List.filter_cons, List.filter_cons, ih hxs]
      by_cases het : e.1 = t
      · simp only [if_pos het]
        by_cases hxt : (x.1 == t) = true <;> simp [hxt]
      · simp only [if_neg het]
    · rw [insertUpper, if_neg hle, List.filter_cons]
      by_cases het : e.1 = t
      · have hnil : ((x :: xs).filter fun p => p.1 == t) = [] := by
          rw [List.filter_eq_nil_iff]
          intro y hy
          have hyk : x.1 ≤ y.1 := by
            rcases List.mem_cons.mp hy with h1 | h2
            · rw [h1]
            · exact hx y h2
          simp only [beq_iff_eq]
          omega
        simp only [if_pos het, hnil, List.nil_append]
        have : (e.1 == t) = true := beq_iff_eq.mpr het
        simp [this]
      · have : (e.1 == t) = false := by
          simp only [beq_eq_false_iff_ne, ne_eq]
          exact het
        simp [this, het]

theorem addCommand_cases (b : CommandBuffer) (c : PlayerCommand) :
    ((b.AddCommand c).2 = false ∧ (b.AddCommand c).1 = b) ∨
    ((b.AddCommand c).2 = true ∧
      (b.AddCommand c).1.commandQueue = insertUpper (c.gameTick, c) b.commandQueue ∧
      (b.AddCommand c).1.maxBufferSize = b.maxBufferSize) := by
  unfold CommandBuffer.AddCommand
  split_ifs <;> simp

/-- For every starting buffer with a key-sorted queue,
`getCommandsForTick t` after feeding a batch of commands returns what it
returned before, followed by exactly the accepted commands whose tick is
`t`, in acceptance order. -/
theorem getCommandsForTick_addMany (t : Nat) :
    ∀ (cs : List PlayerCommand) (b : CommandBuffer),
    (b.commandQueue.Pairwise fun x y => x.1 ≤ y.1) →
    (addMany b cs).GetCommandsForTick t =
      b.GetCommandsForTick t ++
        ((acceptedOf b cs).filter fun c => c.gameTick == t) := by
  intro cs
  induction cs with
  | nil => intro b _; simp [addMany, acceptedOf]
  | cons c cs ih =>
    intro b hsorted
    rw [addMany, acceptedOf]
    rcases addCommand_cases b c with ⟨hacc, heq⟩ | ⟨hacc, hqueue, _⟩
    · rw [hacc, heq]
      simp only [Bool.false_eq_true, if_false, List.nil_append]
      exact ih b hsorted
    · rw [hacc]
      simp only [if_true, List.singleton_append, List.filter_cons]
      have hsorted' : ((b.AddCommand c).1.commandQueue.Pairwise
          fun x y => x.1 ≤ y.1) := by
        rw [hqueue]
        exact insertUpper_pairwise _ _ hsorted
      rw [ih (b.AddCommand c).1 hsorted']
      have hget : (b.AddCommand c).1.GetCommandsForTick t =
          b.GetCommandsForTick t ++ (if c.gameTick == t then [c] else []) := by
        unfold CommandBuffer.GetCommandsForTick
        rw [hqueue, insertUpper_filter _ _ _ hsorted]
        by_cases het : c.gameTick = t
        · rw [if_pos het, if_pos (beq_iff_eq.mpr het)]
          simp
        · rw [if_neg het, if_neg (by simpa using het)]
          simp
      rw [hget]
      by_cases het : (c.gameTick == t) = true <;> simp [het]

/-- C3 (amended).  Starting from an empty buffer, for every sequence of
`addCommand` calls and every tick `t`, `getCommandsForTick t` returns
exactly the accepted commands whose target tick is `t`, in insertion
(acceptance) order — the multimap keeps equal-key entries in insertion
order, not sorted by sequence number. -/
theorem getCommandsForTick_accepted (cs : List PlayerCommand) (t : Nat) :
    (addMany CommandBuffer.empty cs).GetCommandsForTick t =
      (acceptedOf CommandBuffer.empty cs).filter fun c => c.gameTick == t := by
  have h := getCommandsForTick_addMany t cs CommandBuffer.empty (by simp [CommandBuffer.empty])
  simpa [CommandBuffer.GetCommandsForTick, CommandBuffer.empty] using h

/-- A well-formed command from player "p" at tick 5 with the given sequence
number. -/
def cmdSeq (s : Nat) : PlayerCommand :=
  ⟨⟨"p"⟩, 5, 0, ((0 : ℝ), (0 : ℝ)), false, s⟩

/-- C3 counterexample.  Insert sequence 2 then sequence 1 for the same tick
(both accepted, no duplicates, far below the cap): `getCommandsForTick 5`
returns them in insertion order `[2, 1]`, which is not ascending by
sequence number as the claim requires. -/
theorem getCommandsForTick_sequence_order_counterexample :
    ((addMany CommandBuffer.empty [cmdSeq 2, cmdSeq 1]).GetCommandsForTick 5).map
        PlayerCommand.sequenceNumber = [2, 1] ∧
    ¬ List.Sorted (· ≤ ·) ([2, 1] : List Nat) := by
  constructor
  · rfl
  · decide

/-- Modelled from the spec: the world-content classes (`System`, `Ship`,
`Projectile`, `Visual`, `Flotsam`, `AsteroidField`) are referenced but not
defined in the provided sources; the spec treats them as external
collaborators referenced only through minimal contracts.  A `WorldModel`
packages those entity types together with the operations `GameState::Step`
invokes on them: `Ship::Move` (which may emit visuals and flotsam),
`Projectile::IsDead`, `Visual::Move`, and `AsteroidField::Step`. -/
structure WorldModel where
  System : Type
  Ship : Type
  Projectile : Type
  Visual : Type
  Flotsam : Type
  Asteroids : Type
  shipMove : Ship → List Visual → List Flotsam → Ship × List Visual × List Flotsam
  projectileIsDead : Projectile → Bool
  visualMove : Visual → Visual
  asteroidsStep : Asteroids → List Visual → List Flotsam → Nat →
    Asteroids × List Visual × List Flotsam

/-- `GameState` (GameState.h): the authoritative world snapshot.  Cloning
(the C++ deep copy) is plain value copy here. -/
structure GameState (M : WorldModel) where
  currentSystem : Option M.System
  ships : List M.Ship
  projectiles : List M.Projectile
  flotsam : List M.Flotsam
  visuals : List M.Visual
  asteroids : Option M.Asteroids
  gameTick : Nat

/-- `GameState::Step` (GameState.cpp lines 105-156): increment the tick,
move every ship (threading the visual and flotsam collections through),
drop dead projectiles, move the visuals, and step the asteroid field (with
the already-incremented tick) when present. -/
def GameState.Step {M : WorldModel} (s : GameState M) : GameState M :=
  let tick := s.gameTick + 1
  let fold := s.ships.foldl
    (fun acc ship =>
      let r := M.shipMove ship acc.2.1 acc.2.2
      (acc.1 ++ [r.1], r.2.1, r.2.2))
    (([] : List M.Ship), s.visuals, s.flotsam)
  let projectiles := s.projectiles.filter fun pr => !M.projectileIsDead pr
  let visuals := fold.2.1.map M.visualMove
  match s.asteroids with
  | none =>
    { s with
        gameTick := tick
        ships := fold.1
        projectiles := projectiles
        flotsam := fold.2.2
        visuals := visuals }
  | some a =>
    let r := M.asteroidsStep a visuals fold.2.2 tick
    { s with
        gameTick := tick
        ships := fold.1
        projectiles := projectiles
        flotsam := r.2.2
        visuals := r.2.1
        asteroids := some r.1 }

theorem GameState.Step_gameTick {M : WorldModel} (s : GameState M) :
    s.Step.gameTick = s.gameTick + 1 := by
  rcases h : s.asteroids with _ | a <;> simp [GameState.Step, h]

/-- `Predictor` state (Predictor.h): unconfirmed commands, last confirmed
tick, prediction-error count, and the buffer bound (default 60). -/
structure Predictor where
  unconfirmedCommands : List PlayerCommand
  lastConfirmedTick : Nat
  predictionErrors : Nat
  maxUnconfirmedCommands : Nat

/-- A freshly constructed `Predictor`. -/
def Predictor.init : Predictor := ⟨[], 0, 0, 60⟩

/-- `Predictor::RecordCommand` (Predictor.cpp lines 35-43): append, then
drop the oldest entry if the bound is exceeded. -/
def Predictor.RecordCommand (p : Predictor) (c : PlayerCommand) : Predictor :=
  let l := p.unconfirmedCommands ++ [c]
  if l.length > p.maxUnconfirmedCommands then
    { p with unconfirmedCommands := l.drop 1 }
  else
    { p with unconfirmedCommands := l }

/-- `Predictor::ApplyCommand` (Predictor.cpp lines 113-128): a placeholder
in the source — it mutates nothing. -/
def Predictor.ApplyCommand {M : WorldModel} (state : GameState M)
    (_command : PlayerCommand) : GameState M :=
  state

/-- `Predictor::PredictionMatches` (Predictor.cpp lines 132-142): simple
tick comparison. -/
def Predictor.PredictionMatches {M : WorldModel}
    (predicted server : GameState M) : Bool :=
  predicted.gameTick == server.gameTick

/-- `Predictor::PredictNextState` (Predictor.cpp lines 47-61): clone, apply
the command, step once. -/
def Predictor.PredictNextState {M : WorldModel} (currentState : GameState M)
    (command : PlayerCommand) : GameState M :=
  (Predictor.ApplyCommand currentState command).Step

/-- `Predictor::ReconcileWithServer` (Predictor.cpp lines 65-100): set the
confirmed tick, drop every unconfirmed command with tick ≤ serverTick,
then replay the remaining commands (apply, step) on a clone of the server
state; count a prediction error when the replayed tick disagrees. -/
def Predictor.ReconcileWithServer {M : WorldModel} (p : Predictor)
    (serverState : GameState M) (serverTick : Nat) : Predictor × GameState M :=
  let p := { p with lastConfirmedTick := serverTick }
  let remaining := p.unconfirmedCommands.filter fun c =>
    !decide (c.gameTick ≤ serverTick)
  let p := { p with unconfirmedCommands := remaining }
  if remaining.isEmpty then
    (p, serverState)
  else
    let reconciled := remaining.foldl
      (fun st c => (Predictor.ApplyCommand st c).Step) serverState
    let p :=
      if !Predictor.PredictionMatches reconciled serverState then
        { p with predictionErrors := p.predictionErrors + 1 }
      else p
    (p, reconciled)

theorem foldl_apply_step_gameTick {M : WorldModel} :
    ∀ (l : List PlayerCommand) (s : GameState M),
    (l.foldl (fun st c => (Predictor.ApplyCommand st c).Step) s).gameTick =
      s.gameTick + l.length := by
  intro l
  induction l with
  | nil => intro s; simp
  | cons c cs ih =>
    intro s
    rw [List.foldl_cons, ih, List.length_cons]
    rw [Predictor.ApplyCommand, GameState.Step_gameTick]
    omega

/-- C2.  `reconcileWithServer(S, T)` sets `lastConfirmedTick` to `T`, keeps
exactly the unconfirmed commands with tick > `T`, returns the clone of `S`
with each remaining command applied and the world stepped once per command
in list order, and the returned world's tick is `S`'s tick plus the number
of remaining commands. -/
theorem reconcileWithServer_spec (M : WorldModel) (p : Predictor)
    (serverState : GameState M) (serverTick : Nat) :
    (p.ReconcileWithServer serverState serverTick).1.lastConfirmedTick =
      serverTick ∧
    (p.ReconcileWithServer serverState serverTick).1.unconfirmedCommands =
      (p.unconfirmedCommands.filter fun c => !decide (c.gameTick ≤ serverTick)) ∧
    (p.ReconcileWithServer serverState serverTick).2 =
      (p.unconfirmedCommands.filter fun c =>
        !decide (c.gameTick ≤ serverTick)).foldl
          (fun st c => (Predictor.ApplyCommand st c).Step) serverState ∧
    (p.ReconcileWithServer serverState serverTick).2.gameTick =
      serverState.gameTick +
        (p.unconfirmedCommands.filter fun c =>
          !decide (c.gameTick ≤ serverTick)).length := by
  unfold Predictor.ReconcileWithServer
  by_cases hemp : (p.unconfirmedCommands.filter fun c =>
      !decide (c.gameTick ≤ serverTick)).isEmpty
  · have hnil : (p.unconfirmedCommands.filter fun c =>
        !decide (c.gameTick ≤ serverTick)) = [] := List.isEmpty_iff.mp hemp
    simp only [hnil, List.isEmpty_nil, if_true, List.foldl_nil, List.length_nil,
      Nat.add_zero]
    refine ⟨?_, ?_, ?_, ?_⟩ <;> trivial
  · simp only [hemp, Bool.false_eq_true, if_false]
    split_ifs with hmatch <;>
      refine ⟨?_, ?_, ?_, ?_⟩ <;>
        first | trivial | rfl | exact foldl_apply_step_gameTick _ _

/-- The world model with trivial entity content, for concrete runs. -/
def trivialModel : WorldModel where
  System := Unit
  Ship := Unit
  Projectile := Unit
  Visual := Unit
  Flotsam := Unit
  Asteroids := Unit
  shipMove := fun s v f => (s, v, f)
  projectileIsDead := fun _ => false
  visualMove := id
  asteroidsStep := fun a v f _ => (a, v, f)

/-- A server world at tick 100 (trivial content). -/
def serverWorld100 : GameState trivialModel :=
  ⟨none, [], [], [], [], none, 100⟩

/-- C2 witness (the spec's scenario S2): with commands recorded at ticks
100, 101, 102 and the server confirming through tick 100, the unconfirmed
list shrinks to the ticks-101-and-102 commands and the reconciled world's
tick is 102. -/
theorem reconcileWithServer_spec_witness :
    ((Predictor.mk [cmdAt 100, cmdAt 101, cmdAt 102] 0 0 60).ReconcileWithServer
        serverWorld100 100).1.unconfirmedCommands.map PlayerCommand.gameTick =
      [101, 102] ∧
    ((Predictor.mk [cmdAt 100, cmdAt 101, cmdAt 102] 0 0 60).ReconcileWithServer
        serverWorld100 100).1.lastConfirmedTick = 100 ∧
    ((Predictor.mk [cmdAt 100, cmdAt 101, cmdAt 102] 0 0 60).ReconcileWithServer
        serverWorld100 100).2.gameTick = 102 := by
  obtain ⟨h1, h2, h3, h4⟩ := reconcileWithServer_spec trivialModel
    (Predictor.mk [cmdAt 100, cmdAt 101, cmdAt 102] 0 0 60) serverWorld100 100
  refine ⟨?_, h1, ?_⟩
  · rw [h2]
    rfl
  · rw [h4]
    rfl

/-- `Snapshot` (SnapshotManager.h): a recorded world state with metadata.
The wall-clock capture time the constructor reads from `system_clock` is an
explicit input here. -/
structure Snapshot (M : WorldModel) where
  gameTick : Nat
  timestamp : Nat
  state : GameState M
  compressedSize : Nat
  isKeyframe : Bool

/-- `SnapshotManager::EstimateSnapshotSize` (SnapshotManager.cpp
lines 212-235). -/
def EstimateSnapshotSize {M : WorldModel} (state : GameState M) : Nat :=
  32 + state.ships.length * 128 + state.projectiles.length * 32 +
    state.visuals.length * 24 + state.flotsam.length * 64 + 64

/-- `SnapshotManager::CalculateDelta` (SnapshotManager.cpp lines 133-160). -/
def CalculateDelta {M : WorldModel} (current : GameState M) : Nat :=
  (32 + (current.ships.length * 30 / 100) * 48 +
    current.projectiles.length * 32 + current.visuals.length * 24) * 3 / 10

/-- `SnapshotManager` state (SnapshotManager.h). -/
structure SnapshotManager (M : WorldModel) where
  snapshots : List (Snapshot M)
  historySize : Nat
  keyframeInterval : Nat
  snapshotsSinceLastKeyframe : Nat
  totalSnapshots : Nat
  totalKeyframes : Nat
  totalUncompressedBytes : Nat
  totalCompressedBytes : Nat

/-- The `SnapshotManager(historySize)` constructor (default history 120,
default keyframe interval 30). -/
def mkSnapshotManager (M : WorldModel) (historySize : Nat) :
    SnapshotManager M :=
  ⟨[], historySize, 30, 0, 0, 0, 0, 0⟩

/-- `SnapshotManager::ShouldCreateKeyframe` (SnapshotManager.cpp
lines 204-208). -/
def SnapshotManager.ShouldCreateKeyframe {M : WorldModel}
    (m : SnapshotManager M) : Bool :=
  decide (m.snapshotsSinceLastKeyframe ≥ m.keyframeInterval)

/-- The source's `while(snapshots.size() > historySize) pop_front()` loop. -/
def pruneToSize {α : Type _} (n : Nat) : List α → List α
  | [] => []
  | x :: xs => if xs.length + 1 > n then pruneToSize n xs else x :: xs

/-- The last `n` entries of a list. -/
def lastN {α : Type _} (n : Nat) (l : List α) : List α :=
  l.drop (l.length - n)

theorem pruneToSize_eq_lastN {α : Type _} (n : Nat) :
    ∀ l : List α, pruneToSize n l = lastN n l := by
  intro l
  induction l with
  | nil => simp [pruneToSize, lastN]
  | cons x xs ih =>
    rw [pruneToSize]
    by_cases h : xs.length + 1 > n
    · rw [if_pos h, ih]
      unfold lastN
      have hidx : (x :: xs).length - n = (xs.length - n) + 1 := by
        simp only [List.length_cons]
        omega
      rw [hidx, List.drop_succ_cons]
    · rw [if_neg h]
      unfold lastN
      have hidx : (x :: xs).length - n = 0 := by
        simp only [List.length_cons]
        omega
      rw [hidx, List.drop_zero]

theorem lastN_length {α : Type _} (n : Nat) (l : List α) :
    (lastN n l).length = min n l.length := by
  unfold lastN
  rw [List.length_drop]
  omega

theorem lastN_of_le {α : Type _} {n : Nat} {l : List α} (h : l.length ≤ n) :
    lastN n l = l := by
  unfold lastN
  rw [Nat.sub_eq_zero_of_le h, List.drop_zero]

theorem lastN_map {α β : Type _} (f : α → β) (n : Nat) (l : List α) :
    (lastN n l).map f = lastN n (l.map f) := by
  unfold lastN
  rw [List.map_drop, List.length_map]

theorem lastN_append_left {α : Type _} (n : Nat) (X Y : List α) :
    lastN n (lastN n X ++ Y) = lastN n (X ++ Y) := by
  rcases le_or_lt X.length n with hle | hlt
  · rw [lastN_of_le hle]
  · unfold lastN
    have hdlen : (List.drop (X.length - n) X).length = n := by
      rw [List.length_drop]
      omega
    rw [List.drop_append_eq_append_drop, List.drop_append_eq_append_drop,
      List.drop_drop]
    have e1 : X.length - n + ((List.drop (X.length - n) X ++ Y).length - n) =
        (X ++ Y).length - n := by
      rw [List.length_append, List.length_append, hdlen]
      omega
    have e2 : (List.drop (X.length - n) X ++ Y).length - n -
        (List.drop (X.length - n) X).length =
        (X ++ Y).length - n - X.length := by
      rw [List.length_append, List.length_append, hdlen]
      omega
    rw [e1, e2]

/-- `SnapshotManager::CreateSnapshot` (SnapshotManager.cpp lines 46-89):
decide the keyframe flag, clone the state, estimate the sizes (delta
against the previous ring entry for non-keyframes), update the statistics
and the keyframe counter, append, and pop from the front while the ring
exceeds `historySize`. -/
def SnapshotManager.CreateSnapshot {M : WorldModel} (m : SnapshotManager M)
    (currentState : GameState M) (gameTick timestamp : Nat)
    (forceKeyframe : Bool) : SnapshotManager M :=
  let isKeyframe := forceKeyframe || m.ShouldCreateKeyframe
  let uncompressedSize := EstimateSnapshotSize currentState
  let compressedSize :=
    if !isKeyframe && !m.snapshots.isEmpty then
      CalculateDelta currentState
    else uncompressedSize
  let snap : Snapshot M := ⟨gameTick, timestamp, currentState, compressedSize, isKeyframe⟩
  { m with
      snapshots := pruneToSize m.historySize (m.snapshots ++ [snap])
      snapshotsSinceLastKeyframe :=
        if isKeyframe then 0 else m.snapshotsSinceLastKeyframe + 1
      totalSnapshots := m.totalSnapshots + 1
      totalKeyframes := if isKeyframe then m.totalKeyframes + 1 else m.totalKeyframes
      totalUncompressedBytes := m.totalUncompressedBytes + uncompressedSize
      totalCompressedBytes := m.totalCompressedBytes + compressedSize }

/-- Run `CreateSnapshot` (with `forceKeyframe = false`) over a list of
`(state, tick, timestamp)` inputs. -/
def createMany {M : WorldModel} (m : SnapshotManager M) :
    List (GameState M × Nat × Nat) → SnapshotManager M
  | [] => m
  | i :: is => createMany (m.CreateSnapshot i.1 i.2.1 i.2.2 false) is

/-- The `(gameTick, timestamp, isKeyframe)` projection of a ring entry. -/
def snapProj {M : WorldModel} (s : Snapshot M) : Nat × Nat × Bool :=
  (s.gameTick, s.timestamp, s.isKeyframe)

/-- The projections of the snapshots a `createMany` run creates, as a pure
recursion on the inputs and the running keyframe counter. -/
def projTrace {M : WorldModel} (K : Nat) :
    Nat → List (GameState M × Nat × Nat) → List (Nat × Nat × Bool)
  | _, [] => []
  | ctr, i :: is =>
    (i.2.1, i.2.2, decide (ctr ≥ K)) ::
      projTrace K (if decide (ctr ≥ K) then 0 else ctr + 1) is

/-- Whether the (0-based) `j`-th snapshot created from a fresh manager with
keyframe interval `K` is a keyframe: exactly when `K + 1` divides `j + 1`. -/
def kfFlag (K j : Nat) : Bool :=
  decide ((j + 1) % (K + 1) = 0)

theorem projTrace_length {M : WorldModel} (K : Nat) :
    ∀ (c : Nat) (inputs : List (GameState M × Nat × Nat)),
    (projTrace K c inputs).length = inputs.length := by
  intro c inputs
  induction inputs generalizing c with
  | nil => rfl
  | cons i is ih => simp [projTrace, ih]

theorem projTrace_ticks {M : WorldModel} (K : Nat) :
    ∀ (c : Nat) (inputs : List (GameState M × Nat × Nat)),
    (projTrace K c inputs).map (fun x => (x.1, x.2.1)) =
      inputs.map fun i => (i.2.1, i.2.2) := by
  intro c inputs
  induction inputs generalizing c with
  | nil => rfl
  | cons i is ih => simp [projTrace, ih]

theorem projTrace_flags {M : WorldModel} (K : Nat) :
    ∀ (inputs : List (GameState M × Nat × Nat)) (c : Nat), c ≤ K →
    (projTrace K c inputs).map (fun x => x.2.2) =
      (List.range inputs.length).map fun i => kfFlag K (c + i) := by
  intro inputs
  induction inputs with
  | nil => intro c _; rfl
  | cons i is ih =>
    intro c hc
    rw [projTrace, List.map_cons, List.length_cons, List.range_succ_eq_map,
      List.map_cons, List.map_map]
    by_cases hck : c ≥ K
    · have hcK : c = K := by omega
      have hhead : decide (c ≥ K) = kfFlag K (c + 0) := by
        subst hcK
        simp [kfFlag, Nat.mod_self]
      rw [if_pos (by rw [hcK]; simp), hhead, ih 0 (by omega)]
      refine congrArg _ ?_
      apply List.map_congr_left
      intro j _
      show kfFlag K (0 + j) = kfFlag K (c + (j + 1))
      rw [hcK]
      unfold kfFlag
      have h2 : K + (j + 1) + 1 = (K + 1) + (j + 1) := by omega
      rw [h2, Nat.add_mod_left]
      simp
    · have hhead : decide (c ≥ K) = kfFlag K (c + 0) := by
        have h1 : ¬ (c + 0 + 1) % (K + 1) = 0 := by
          rw [Nat.mod_eq_of_lt (by omega)]
          omega
        simp [kfFlag, hck, h1]
      rw [if_neg (by simpa using hck), hhead, ih (c + 1) (by omega)]
      refine congrArg _ ?_
      apply List.map_congr_left
      intro j _
      show kfFlag K (c + 1 + j) = kfFlag K (c + (j + 1))
      refine congrArg _ ?_
      omega

/-- The ring-content invariant of `createMany`: the retained entries'
projections are the last `historySize` created projections. -/
theorem createMany_snapshots {M : WorldModel} (K N : Nat) :
    ∀ (inputs : List (GameState M × Nat × Nat)) (m : SnapshotManager M),
    m.historySize = N → m.keyframeInterval = K → m.snapshots.length ≤ N →
    (createMany m inputs).snapshots.map snapProj =
      lastN N (m.snapshots.map snapProj ++
        projTrace K m.snapshotsSinceLastKeyframe inputs) := by
  intro inputs
  induction inputs with
  | nil =>
    intro m hN hK hlen
    rw [createMany, projTrace, List.append_nil, lastN_of_le (by simpa using hlen)]
  | cons i is ih =>
    intro m hN hK hlen
    rw [createMany, projTrace]
    have hkf : (false || m.ShouldCreateKeyframe) =
        decide (m.snapshotsSinceLastKeyframe ≥ K) := by
      rw [Bool.false_or, SnapshotManager.ShouldCreateKeyframe, hK]
    have hstep : (m.CreateSnapshot i.1 i.2.1 i.2.2 false).snapshots.map snapProj =
        lastN N (m.snapshots.map snapProj ++
          [(i.2.1, i.2.2, decide (m.snapshotsSinceLastKeyframe ≥ K))]) := by
      unfold SnapshotManager.CreateSnapshot
      simp only [hkf, hN]
      rw [pruneToSize_eq_lastN, lastN_map, List.map_append, List.map_cons,
        List.map_nil]
      rfl
    have hctr : (m.CreateSnapshot i.1 i.2.1 i.2.2 false).snapshotsSinceLastKeyframe =
        if decide (m.snapshotsSinceLastKeyframe ≥ K) then 0
        else m.snapshotsSinceLastKeyframe + 1 := by
      unfold SnapshotManager.CreateSnapshot
      simp only [hkf]
    have hlen' : (m.CreateSnapshot i.1 i.2.1 i.2.2 false).snapshots.length ≤ N := by
      have := congrArg List.length hstep
      rw [List.length_map, lastN_length] at this
      omega
    rw [ih (m.CreateSnapshot i.1 i.2.1 i.2.2 false) (by exact hN) (by exact hK) hlen',
      hstep, hctr, lastN_append_left]
    rw [List.append_assoc, List.singleton_append]

/-- C4 (amended).  For every capacity `N` and keyframe interval `K`, after
feeding `M` snapshots (`forceKeyframe = false`) to a fresh manager: the
ring holds `min N M` entries, those entries are the most recent inserts in
insertion order, and the `j`-th created snapshot (0-based) is a keyframe
exactly when `K + 1` divides `j + 1` — i.e. keyframes recur with stride
`K + 1` (the first one is snapshot number `K + 1`), not stride `K`. -/
theorem snapshot_ring_keyframes (M : WorldModel) (N K : Nat)
    (inputs : List (GameState M × Nat × Nat)) :
    ((createMany { mkSnapshotManager M N with keyframeInterval := K }
        inputs).snapshots.length = min N inputs.length) ∧
    ((createMany { mkSnapshotManager M N with keyframeInterval := K }
        inputs).snapshots.map (fun s => (s.gameTick, s.timestamp)) =
      lastN N (inputs.map fun i => (i.2.1, i.2.2))) ∧
    ((createMany { mkSnapshotManager M N with keyframeInterval := K }
        inputs).snapshots.map Snapshot.isKeyframe =
      lastN N ((List.range inputs.length).map fun j => kfFlag K j)) := by
  have h := createMany_snapshots K N inputs
    { mkSnapshotManager M N with keyframeInterval := K } rfl rfl
    (by simp [mkSnapshotManager])
  simp only [mkSnapshotManager, List.map_nil, List.nil_append] at h
  simp only [mkSnapshotManager]
  refine ⟨?_, ?_, ?_⟩
  · have hl := congrArg List.length h
    rw [List.length_map, lastN_length, projTrace_length] at hl
    exact hl
  · have h2 := congrArg (List.map fun x : Nat × Nat × Bool => (x.1, x.2.1)) h
    rw [List.map_map, lastN_map, projTrace_ticks] at h2
    exact h2
  · have h3 := congrArg (List.map fun x : Nat × Nat × Bool => x.2.2) h
    rw [List.map_map, lastN_map, projTrace_flags K inputs 0 (by omega)] at h3
    rw [show ((List.range inputs.length).map fun i => kfFlag K (0 + i)) =
        ((List.range inputs.length).map fun j => kfFlag K j) from
      List.map_congr_left fun j _ => by rw [Nat.zero_add]] at h3
    exact h3

/-- An empty trivial world. -/
def w0 : GameState trivialModel :=
  ⟨none, [], [], [], [], none, 0⟩

/-- 31 snapshot inputs `(w0, i, i)`. -/
def snapInputs31 : List (GameState trivialModel × Nat × Nat) :=
  (List.range 31).map fun i => (w0, i, i)

/-- C4 counterexample.  With the default keyframe interval `K = 30` and 31
inserts on a fresh default manager, the created snapshots' keyframe flags
are 30 times `false` followed by one `true`: the 30th created snapshot
(0-based index 29) is NOT a keyframe, refuting "every Kth created snapshot
is marked a keyframe" — the true stride is `K + 1 = 31`. -/
theorem snapshot_keyframe_stride_counterexample :
    (mkSnapshotManager trivialModel 120).keyframeInterval = 30 ∧
    ((createMany (mkSnapshotManager trivialModel 120) snapInputs31).snapshots.map
        Snapshot.isKeyframe) = List.replicate 30 false ++ [true] ∧
    ((createMany (mkSnapshotManager trivialModel 120) snapInputs31).snapshots.map
        Snapshot.isKeyframe).get? 29 = some false := by
  refine ⟨rfl, by decide, by decide⟩

/-- `ProjectileSync::ProjectileSpawn` (ProjectileSync.h). -/
structure ProjectileSpawn where
  projectileID : Nat
  weaponName : String
  firingShipUUID : EsUuid
  targetShipUUID : EsUuid
  position : Point
  velocity : Point
  angle : ℝ
  spawnTick : Nat

/-- `ProjectileSync::ProjectileImpact` (ProjectileSync.h). -/
structure ProjectileImpact where
  projectileID : Nat
  targetUUID : EsUuid
  impactPosition : Point
  intersection : ℝ
  impactTick : Nat

/-- `ProjectileSync::ProjectileDeath` (ProjectileSync.h). -/
structure ProjectileDeath where
  projectileID : Nat
  deathPosition : Point
  deathTick : Nat

/-- `ProjectileSync` state (ProjectileSync.h).  Projectile pointers are
modelled by their identity as naturals, and the two `std::map`s as partial
functions (insert-or-assign, erase-all on clear). -/
structure ProjectileSync where
  currentTick : Nat
  nextProjectileID : Nat
  pendingSpawns : List ProjectileSpawn
  pendingImpacts : List ProjectileImpact
  pendingDeaths : List ProjectileDeath
  networkIDToProjectile : Nat → Option Nat
  projectileToNetworkID : Nat → Option Nat

/-- The `ProjectileSync()` constructor: tick 0, IDs start at 1, all
tracking empty. -/
def ProjectileSync.init : ProjectileSync :=
  ⟨0, 1, [], [], [], fun _ => none, fun _ => none⟩

/-- `ProjectileSync::RegisterProjectileSpawn` (ProjectileSync.cpp
lines 37-60): allocate the next network ID, record the binding in both
maps, and queue a spawn event.  The `Projectile`/`Ship` field reads
(position, velocity, facing, target, firing ship UUID — classes not under
the provided sources) arrive as explicit inputs; a missing ship yields the
default `EsUuid()` whose string form is empty. -/
def ProjectileSync.RegisterProjectileSpawn (s : ProjectileSync)
    (projectile : Nat) (firingShip targetShip : Option EsUuid)
    (weaponName : String) (position velocity : Point) (angle : ℝ) :
    ProjectileSync × Nat :=
  let networkID := s.nextProjectileID
  let spawn : ProjectileSpawn :=
    ⟨networkID, weaponName,
      (match firingShip with | some u => u | none => ⟨""⟩),
      (match targetShip with | some u => u | none => ⟨""⟩),
      position, velocity, angle, s.currentTick⟩
  ({ s with
      nextProjectileID := networkID + 1
      networkIDToProjectile :=
        (fun q => if q = networkID then some projectile
          else s.networkIDToProjectile q)
      projectileToNetworkID :=
        (fun q => if q = projectile then some networkID
          else s.projectileToNetworkID q)
      pendingSpawns := s.pendingSpawns ++ [spawn] },
    networkID)

/-- `ProjectileSync::RegisterImpact` (ProjectileSync.cpp lines 73-84):
queue an impact event; the ID maps are not touched. -/
def ProjectileSync.RegisterImpact (s : ProjectileSync) (projectileID : Nat)
    (target : Option EsUuid) (impactPos : Point) (intersection : ℝ) :
    ProjectileSync :=
  { s with
      pendingImpacts := s.pendingImpacts ++
        [⟨projectileID, (match target with | some u => u | none => ⟨""⟩),
          impactPos, intersection, s.currentTick⟩] }

/-- `ProjectileSync::RegisterDeath` (ProjectileSync.cpp lines 88-96):
queue a death event; the ID maps are not touched. -/
def ProjectileSync.RegisterDeath (s : ProjectileSync) (projectileID : Nat)
    (deathPos : Point) : ProjectileSync :=
  { s with
      pendingDeaths := s.pendingDeaths ++
        [⟨projectileID, deathPos, s.currentTick⟩] }

/-- `ProjectileSync::Clear` (ProjectileSync.cpp lines 280-288). -/
def ProjectileSync.Clear (s : ProjectileSync) : ProjectileSync :=
  { s with
      pendingSpawns := []
      pendingImpacts := []
      pendingDeaths := []
      networkIDToProjectile := fun _ => none
      projectileToNetworkID := fun _ => none
      nextProjectileID := 1 }

/-- `ProjectileSync::GetNetworkID` (ProjectileSync.cpp lines 189-195):
0 when untracked. -/
def ProjectileSync.GetNetworkID (s : ProjectileSync) (projectile : Nat) : Nat :=
  match s.projectileToNetworkID projectile with
  | some id => id
  | none => 0

/-- `ProjectileSync::IsTracked` (ProjectileSync.cpp lines 199-202). -/
def ProjectileSync.IsTracked (s : ProjectileSync) (projectile : Nat) : Bool :=
  (s.projectileToNetworkID projectile).isSome

/-- C9 (amended).  Network-ID bindings are created exactly on spawn
registration with IDs handed out monotonically from 1, are untouched by
impact and death registration (those only queue events), and are destroyed
only by `Clear`, after which no lookup finds them and the next ID restarts
at 1. -/
theorem projectile_binding_lifecycle :
    (∀ (s : ProjectileSync) (proj : Nat) (fs ts : Option EsUuid) (wn : String)
      (pos vel : Point) (ang : ℝ),
      (s.RegisterProjectileSpawn proj fs ts wn pos vel ang).2 =
        s.nextProjectileID ∧
      (s.RegisterProjectileSpawn proj fs ts wn pos vel ang).1.nextProjectileID =
        s.nextProjectileID + 1 ∧
      (s.RegisterProjectileSpawn proj fs ts wn pos vel ang).1.networkIDToProjectile
        s.nextProjectileID = some proj ∧
      (s.RegisterProjectileSpawn proj fs ts wn pos vel ang).1.projectileToNetworkID
        proj = some s.nextProjectileID) ∧
    (∀ (s : ProjectileSync) (pid : Nat) (tgt : Option EsUuid) (pos : Point)
      (inter : ℝ),
      (s.RegisterImpact pid tgt pos inter).networkIDToProjectile =
        s.networkIDToProjectile ∧
      (s.RegisterImpact pid tgt pos inter).projectileToNetworkID =
        s.projectileToNetworkID) ∧
    (∀ (s : ProjectileSync) (pid : Nat) (pos : Point),
      (s.RegisterDeath pid pos).networkIDToProjectile =
        s.networkIDToProjectile ∧
      (s.RegisterDeath pid pos).projectileToNetworkID =
        s.projectileToNetworkID) ∧
    (∀ (s : ProjectileSync) (id proj : Nat),
      s.Clear.networkIDToProjectile id = none ∧
      s.Clear.projectileToNetworkID proj = none ∧
      s.Clear.nextProjectileID = 1) ∧
    ProjectileSync.init.nextProjectileID = 1 := by
  refine ⟨fun s proj fs ts wn pos vel ang => ⟨rfl, rfl, ?_, ?_⟩,
    fun s pid tgt pos inter => ⟨rfl, rfl⟩,
    fun s pid pos => ⟨rfl, rfl⟩,
    fun s id proj => ⟨rfl, rfl, rfl⟩, rfl⟩
  · simp [ProjectileSync.RegisterProjectileSpawn]
  · simp [ProjectileSync.RegisterProjectileSpawn]

/-- The sync state after registering a spawn for projectile 7 (assigned
network ID 1). -/
def psAfterSpawn : ProjectileSync :=
  (ProjectileSync.init.RegisterProjectileSpawn 7 none none "blaster"
    ((0 : ℝ), (0 : ℝ)) ((0 : ℝ), (0 : ℝ)) 0).1

/-- The same state after registering an impact for that projectile's
network ID. -/
def psAfterImpact : ProjectileSync :=
  psAfterSpawn.RegisterImpact 1 none ((0 : ℝ), (0 : ℝ)) 0

/-- C9 counterexample.  Registering an impact does NOT destroy the
projectile's network-ID binding: after spawn (ID 1) and a registered
impact for ID 1, the projectile is still tracked and both lookups still
find the binding, contradicting the claimed destroy-on-impact lifecycle. -/
theorem projectile_binding_impact_counterexample :
    psAfterImpact.IsTracked 7 = true ∧
    psAfterImpact.GetNetworkID 7 = 1 ∧
    psAfterImpact.networkIDToProjectile 1 = some 7 := by
  refine ⟨rfl, rfl, rfl⟩

/-- `EntityState` (EntityInterpolator.h): a timestamped pose sample.  The
facing `Angle` (class not under the provided sources) is modelled from the
spec as its degree value. -/
structure EntityState where
  gameTick : Nat
  position : Point
  velocity : Point
  facing : ℝ
  timestamp : Nat

/-- The second loop of `EntityInterpolator::PruneOldSnapshots`
(EntityInterpolator.cpp lines 225-233): pop the front while more than 2
entries remain and the front is older than the render time. -/
def prunePhase2 (renderTime : Nat) : List EntityState → List EntityState
  | a :: b :: c :: rest =>
    if a.timestamp < renderTime then prunePhase2 renderTime (b :: c :: rest)
    else a :: b :: c :: rest
  | l => l

/-- `EntityInterpolator::PruneOldSnapshots` (EntityInterpolator.cpp
lines 209-235) on one entity timeline, with the render time as explicit
input: first unconditionally pop every leading entry older than
`renderTime - 1000` (`uint64_t` subtraction), then pop leading entries
older than `renderTime` while more than 2 remain. -/
def PruneOldSnapshots (renderTime : Nat) (history : List EntityState) :
    List EntityState :=
  let pruneThreshold := sub64 renderTime 1000
  prunePhase2 renderTime
    (history.dropWhile fun e => decide (e.timestamp < pruneThreshold))

theorem prunePhase2_suffix (rt : Nat) :
    ∀ l : List EntityState,
    ∃ r, l = r ++ prunePhase2 rt l ∧ ∀ e ∈ r, e.timestamp < rt := by
  intro l
  induction l with
  | nil => exact ⟨[], rfl, by simp⟩
  | cons a tail ih =>
    rcases tail with _ | ⟨b, tail2⟩
    · exact ⟨[], rfl, by simp⟩
    · rcases tail2 with _ | ⟨c, rest⟩
      · exact ⟨[], rfl, by simp⟩
      · rw [prunePhase2]
        by_cases ha : a.timestamp < rt
        · rw [if_pos ha]
          obtain ⟨r, hr, hts⟩ := ih
          refine ⟨a :: r, ?_, ?_⟩
          · rw [List.cons_append, ← hr]
          · intro e he
            rcases List.mem_cons.mp he with he1 | he2
            · rw [he1]; exact ha
            · exact hts e he2
        · rw [if_neg ha]
          exact ⟨[], rfl, by simp⟩

theorem prunePhase2_length (rt : Nat) :
    ∀ l : List EntityState, min 2 l.length ≤ (prunePhase2 rt l).length := by
  intro l
  induction l with
  | nil => simp [prunePhase2]
  | cons a tail ih =>
    rcases tail with _ | ⟨b, tail2⟩
    · simp [prunePhase2]
    · rcases tail2 with _ | ⟨c, rest⟩
      · simp [prunePhase2]
      · rw [prunePhase2]
        by_cases ha : a.timestamp < rt
        · rw [if_pos ha]
          refine le_trans ?_ ih
          simp only [List.length_cons]
          omega
        · rw [if_neg ha]
          simp only [List.length_cons]
          omega

/-- C7 (amended).  Pruning removes only a prefix of the timeline, every
removed entry is older than the render time, and the second pruning phase
never reduces the timeline below 2 entries — but the first phase removes
every leading entry older than `renderTime − 1000` unconditionally, so a
timeline whose entries are all that old is emptied entirely: what survives
is at least `min 2 (number of entries surviving the age cutoff)`. -/
theorem pruneOldSnapshots_spec (renderTime : Nat) (history : List EntityState)
    (h1000 : 1000 ≤ renderTime) (hlt : renderTime < 2 ^ 64) :
    (∃ removed, history = removed ++ PruneOldSnapshots renderTime history ∧
      ∀ e ∈ removed, e.timestamp < renderTime) ∧
    min 2 (history.dropWhile fun e =>
      decide (e.timestamp < renderTime - 1000)).length ≤
      (PruneOldSnapshots renderTime history).length := by
  have hsub : sub64 renderTime 1000 = renderTime - 1000 :=
    sub64_eq_sub h1000 hlt
  constructor
  · obtain ⟨r2, hr2, hts2⟩ := prunePhase2_suffix renderTime
      (history.dropWhile fun e => decide (e.timestamp < sub64 renderTime 1000))
    refine ⟨(history.takeWhile fun e =>
      decide (e.timestamp < sub64 renderTime 1000)) ++ r2, ?_, ?_⟩
    · rw [PruneOldSnapshots, List.append_assoc, ← hr2,
        List.takeWhile_append_dropWhile]
    · intro e he
      rcases List.mem_append.mp he with he1 | he2
      · have := List.mem_takeWhile_imp he1
        simp only [decide_eq_true_eq] at this
        omega
      · exact hts2 e he2
  · rw [PruneOldSnapshots, hsub]
    exact prunePhase2_length renderTime _

/-- An entity sample at the given timestamp (trivial pose). -/
def eAt (t : Nat) : EntityState :=
  ⟨0, ((0 : ℝ), (0 : ℝ)), ((0 : ℝ), (0 : ℝ)), 0, t⟩

/-- C7 witness: at render time 5000, a timeline [4500, 4600, 5100] keeps at
least min 2 2 = 2 entries and loses only entries older than the render
time. -/
theorem pruneOldSnapshots_spec_witness :
    (∃ removed, [eAt 4500, eAt 4600, eAt 5100] =
      removed ++ PruneOldSnapshots 5000 [eAt 4500, eAt 4600, eAt 5100] ∧
      ∀ e ∈ removed, e.timestamp < 5000) ∧
    min 2 (([eAt 4500, eAt 4600, eAt 5100].dropWhile fun e =>
      decide (e.timestamp < 5000 - 1000)).length) ≤
      (PruneOldSnapshots 5000 [eAt 4500, eAt 4600, eAt 5100]).length :=
  pruneOldSnapshots_spec 5000 [eAt 4500, eAt 4600, eAt 5100]
    (by norm_num) (by norm_num)

/-- C7 counterexample.  Both halves of the claim fail on the code: (a) a
timeline of 2 entries both older than `renderTime − 1000` is emptied
completely by the first pruning loop (the "never below 2" guard exists
only in the second loop); (b) with timeline [4500, 4600, 5100] at render
time 5000 the entry at 4500 is removed although it is not older than
`renderTime − 1000 = 4000` (the second loop removes entries merely older
than `renderTime`). -/
theorem pruneOldSnapshots_counterexample :
    ([eAt 0, eAt 1] : List EntityState).length = 2 ∧
    (PruneOldSnapshots 5000 [eAt 0, eAt 1]).length = 0 ∧
    (PruneOldSnapshots 5000 [eAt 4500, eAt 4600, eAt 5100]).map
      EntityState.timestamp = [4600, 5100] ∧
    ¬ (4500 : Nat) < 5000 - 1000 := by
  refine ⟨rfl, ?_, ?_, by norm_num⟩
  · rfl
  · rfl

/-- `ClientReconciliation` state (ClientReconciliation.h). -/
structure ClientReconciliation where
  positionError : Point
  positionCorrectionProgress : ℝ
  velocityError : Point
  velocityCorrectionProgress : ℝ
  facingErrorDegrees : ℝ
  facingCorrectionProgress : ℝ
  correctionTimeSeconds : ℝ
  errorThresholdPx : ℝ
  snapThresholdPx : ℝ
  totalReconciliations : Nat
  totalSnaps : Nat
  averageError : ℝ

/-- A freshly constructed `ClientReconciliation` with the header defaults
(progress 1.0, correction time 0.15 s, error threshold 1 px, snap
threshold 500 px). -/
noncomputable def ClientReconciliation.init : ClientReconciliation :=
  ⟨(0, 0), 1, (0, 0), 1, 0, 1, 0.15, 1, 500, 0, 0, 0⟩

/-- `ClientReconciliation::IsSignificantError` (ClientReconciliation.cpp
lines 206-209). -/
noncomputable def ClientReconciliation.IsSignificantError
    (c : ClientReconciliation) (errorMagnitude : ℝ) : Bool :=
  decide (errorMagnitude ≥ c.errorThresholdPx)

/-- `ClientReconciliation::ReconcilePosition` (ClientReconciliation.cpp
lines 31-63): compute the error and its magnitude, fold the magnitude into
the running EMA (α = 0.1), then ignore (below threshold), snap (above the
snap threshold), or begin gradual correction. -/
noncomputable def ClientReconciliation.ReconcilePosition
    (c : ClientReconciliation) (predictedPos serverPos : Point) :
    ClientReconciliation :=
  let positionError := serverPos - predictedPos
  let errorMagnitude := Point.length positionError
  let averageError := 0.1 * errorMagnitude + (1 - 0.1) * c.averageError
  if !c.IsSignificantError errorMagnitude then
    { c with
        positionError := (0, 0)
        positionCorrectionProgress := 1
        averageError := averageError }
  else if errorMagnitude > c.snapThresholdPx then
    { c with
        positionError := (0, 0)
        positionCorrectionProgress := 1
        totalSnaps := c.totalSnaps + 1
        averageError := averageError }
  else
    { c with
        positionError := positionError
        positionCorrectionProgress := 0
        totalReconciliations := c.totalReconciliations + 1
        averageError := averageError }

/-- C5.  `reconcilePosition` takes exactly one of three branches decided by
the error magnitude `m = |authoritative − predicted|`: below the error
threshold it zeroes the error, completes progress and changes no counter;
above the snap threshold it zeroes the error, completes progress and
increments only the snap counter; otherwise it keeps the error, resets
progress to 0 and increments only the reconciliation counter — and in
every branch the running average updates by the EMA with α = 0.1. -/
theorem reconcilePosition_branches (c : ClientReconciliation)
    (predictedPos serverPos : Point) :
    (Point.length (serverPos - predictedPos) < c.errorThresholdPx →
      (c.ReconcilePosition predictedPos serverPos).positionError = (0, 0) ∧
      (c.ReconcilePosition predictedPos serverPos).positionCorrectionProgress = 1 ∧
      (c.ReconcilePosition predictedPos serverPos).totalSnaps = c.totalSnaps ∧
      (c.ReconcilePosition predictedPos serverPos).totalReconciliations =
        c.totalReconciliations) ∧
    (¬ Point.length (serverPos - predictedPos) < c.errorThresholdPx →
      Point.length (serverPos - predictedPos) > c.snapThresholdPx →
      (c.ReconcilePosition predictedPos serverPos).positionError = (0, 0) ∧
      (c.ReconcilePosition predictedPos serverPos).positionCorrectionProgress = 1 ∧
      (c.ReconcilePosition predictedPos serverPos).totalSnaps = c.totalSnaps + 1 ∧
      (c.ReconcilePosition predictedPos serverPos).totalReconciliations =
        c.totalReconciliations) ∧
    (¬ Point.length (serverPos - predictedPos) < c.errorThresholdPx →
      ¬ Point.length (serverPos - predictedPos) > c.snapThresholdPx →
      (c.ReconcilePosition predictedPos serverPos).positionError =
        serverPos - predictedPos ∧
      (c.ReconcilePosition predictedPos serverPos).positionCorrectionProgress = 0 ∧
      (c.ReconcilePosition predictedPos serverPos).totalReconciliations =
        c.totalReconciliations + 1 ∧
      (c.ReconcilePosition predictedPos serverPos).totalSnaps = c.totalSnaps) ∧
    (c.ReconcilePosition predictedPos serverPos).averageError =
      0.1 * Point.length (serverPos - predictedPos) + (1 - 0.1) * c.averageError := by
  unfold ClientReconciliation.ReconcilePosition ClientReconciliation.IsSignificantError
  dsimp only
  split_ifs with h1 h2
  · simp only [Bool.not_eq_true', decide_eq_false_iff_not, not_le] at h1
    exact ⟨fun _ => ⟨rfl, rfl, rfl, rfl⟩, fun hm _ => absurd h1 hm,
      fun hm _ => absurd h1 hm, rfl⟩
  · simp only [Bool.not_eq_true', decide_eq_false_iff_not, not_le, not_lt] at h1
    exact ⟨fun hm => absurd hm (not_lt.mpr h1), fun _ _ => ⟨rfl, rfl, rfl, rfl⟩,
      fun _ hms => absurd h2 hms, rfl⟩
  · simp only [Bool.not_eq_true', decide_eq_false_iff_not, not_le, not_lt] at h1
    exact ⟨fun hm => absurd hm (not_lt.mpr h1), fun _ hms => absurd hms h2,
      fun _ _ => ⟨rfl, rfl, rfl, rfl⟩, rfl⟩

/-- C5 witness: with the default thresholds (1 px, 500 px), an error of
magnitude 600 px takes the snap branch — the snap counter increments, the
reconciliation counter does not, progress completes, and the EMA absorbs
0.1 × 600. -/
theorem reconcilePosition_branches_witness :
    (ClientReconciliation.init.ReconcilePosition ((0 : ℝ), (0 : ℝ))
      ((600 : ℝ), (0 : ℝ))).totalSnaps = 1 ∧
    (ClientReconciliation.init.ReconcilePosition ((0 : ℝ), (0 : ℝ))
      ((600 : ℝ), (0 : ℝ))).totalReconciliations = 0 ∧
    (ClientReconciliation.init.ReconcilePosition ((0 : ℝ), (0 : ℝ))
      ((600 : ℝ), (0 : ℝ))).positionCorrectionProgress = 1 ∧
    (ClientReconciliation.init.ReconcilePosition ((0 : ℝ), (0 : ℝ))
      ((600 : ℝ), (0 : ℝ))).averageError = 60 := by
  have hm : Point.length ((((600 : ℝ), (0 : ℝ)) : Point) - ((0 : ℝ), (0 : ℝ))) = 600 := by
    unfold Point.length
    have h1 : ((((600 : ℝ), (0 : ℝ)) : Point) - ((0 : ℝ), (0 : ℝ))).1 = 600 := by
      norm_num
    have h2 : ((((600 : ℝ), (0 : ℝ)) : Point) - ((0 : ℝ), (0 : ℝ))).2 = 0 := by
      norm_num
    rw [h1, h2]
    rw [show (600 : ℝ) ^ 2 + 0 ^ 2 = 600 ^ 2 by ring]
    exact Real.sqrt_sq (by norm_num)
  obtain ⟨hb1, hb2, hb3, havg⟩ := reconcilePosition_branches
    ClientReconciliation.init ((0 : ℝ), (0 : ℝ)) ((600 : ℝ), (0 : ℝ))
  have hnot : ¬ Point.length ((((600 : ℝ), (0 : ℝ)) : Point) - ((0 : ℝ), (0 : ℝ))) <
      ClientReconciliation.init.errorThresholdPx := by
    rw [hm]
    show ¬ (600 : ℝ) < 1
    norm_num
  have hsnap : Point.length ((((600 : ℝ), (0 : ℝ)) : Point) - ((0 : ℝ), (0 : ℝ))) >
      ClientReconciliation.init.snapThresholdPx := by
    rw [hm]
    show (600 : ℝ) > 500
    norm_num
  obtain ⟨_, _, hs, hr⟩ := hb2 hnot hsnap
  refine ⟨hs, hr, (hb2 hnot hsnap).2.1, ?_⟩
  rw [havg, hm]
  show (0.1 : ℝ) * 600 + (1 - 0.1) * 0 = 60
  norm_num

/-- The bracket search inside `EntityInterpolator::GetInterpolatedState`
(EntityInterpolator.cpp lines 79-88): the first adjacent pair whose
timestamps enclose the render time. -/
def findBracket (renderTime : Nat) :
    List EntityState → Option (EntityState × EntityState)
  | a :: b :: rest =>
    if a.timestamp ≤ renderTime ∧ renderTime ≤ b.timestamp then some (a, b)
    else findBracket renderTime (b :: rest)
  | _ => none

/-- `EntityInterpolator::Interpolate` (EntityInterpolator.cpp
lines 165-194): linear blend of position and velocity, shortest-arc blend
of facing, truncated blend of the integer timestamps and ticks. -/
noncomputable def Interpolate (f t : EntityState) (alpha : ℝ) : EntityState :=
  let diff0 := t.facing - f.facing
  let diff :=
    if diff0 > 180 then diff0 - 360
    else if diff0 < -180 then diff0 + 360
    else diff0
  { gameTick := f.gameTick + ⌊((t.gameTick - f.gameTick : Nat) : ℝ) * alpha⌋₊
    position := f.position + Point.scale (t.position - f.position) alpha
    velocity := f.velocity + Point.scale (t.velocity - f.velocity) alpha
    facing := f.facing + diff * alpha
    timestamp := f.timestamp + ⌊((t.timestamp - f.timestamp : Nat) : ℝ) * alpha⌋₊ }

/-- `EntityInterpolator::GetInterpolatedState` (EntityInterpolator.cpp
lines 60-107) on one entity timeline, with the render time as explicit
input: fewer than 2 snapshots returns the most recent (or nothing); no
bracket falls back to the most recent; equal bracket timestamps return the
later state; otherwise blend at the clamped interpolation factor. -/
noncomputable def GetInterpolatedState (renderTime : Nat)
    (history : List EntityState) : Option EntityState :=
  if history.length < 2 then history.getLast?
  else
    match findBracket renderTime history with
    | none => history.getLast?
    | some (before, after) =>
      if after.timestamp - before.timestamp = 0 then some after
      else
        let alpha : ℝ := ((renderTime - before.timestamp : Nat) : ℝ) /
          ((after.timestamp - before.timestamp : Nat) : ℝ)
        some (Interpolate before after (max 0 (min 1 alpha)))

theorem findBracket_length {renderTime : Nat} :
    ∀ {l : List EntityState} {p : EntityState × EntityState},
    findBracket renderTime l = some p → 2 ≤ l.length := by
  intro l
  induction l with
  | nil => intro p h; exact absurd h (by simp [findBracket])
  | cons a tail ih =>
    intro p h
    rcases tail with _ | ⟨b, rest⟩
    · exact absurd h (by simp [findBracket])
    · simp only [List.length_cons]
      omega

theorem findBracket_bounds {renderTime : Nat} :
    ∀ {l : List EntityState} {before after : EntityState},
    findBracket renderTime l = some (before, after) →
    before.timestamp ≤ renderTime ∧ renderTime ≤ after.timestamp := by
  intro l
  induction l with
  | nil => intro b a h; exact absurd h (by simp [findBracket])
  | cons x tail ih =>
    intro b a h
    rcases tail with _ | ⟨y, rest⟩
    · exact absurd h (by simp [findBracket])
    · rw [findBracket] at h
      split_ifs at h with hcond
      · rw [Option.some_inj] at h
        have hb : x = b := congrArg Prod.fst h
        have ha : y = a := congrArg Prod.snd h
        rw [← hb, ← ha]
        exact hcond
      · exact ih h

/-- C6.  When the bracket search finds the adjacent pair (before, after)
with distinct timestamps, the returned state blends at
`α = (renderTime − before.ts) / (after.ts − before.ts)`, which already lies
in [0, 1]: its position is the point of the segment whose Euclidean
distance to `before.position` is `α · |after.position − before.position|`,
its velocity is the linear blend at the same `α`, and (for facings
normalized to (−180, 180]) its facing advances from `before.facing` by `α`
times a signed arc `d` with `|d| ≤ 180` congruent to the facing difference
modulo 360. -/
theorem getInterpolatedState_bracket (renderTime : Nat)
    (history : List EntityState) (before after : EntityState)
    (hfind : findBracket renderTime history = some (before, after))
    (hts : before.timestamp < after.timestamp)
    (hfb1 : -180 < before.facing) (hfb2 : before.facing ≤ 180)
    (hfa1 : -180 < after.facing) (hfa2 : after.facing ≤ 180) :
    ∃ r alpha,
      alpha = ((renderTime - before.timestamp : Nat) : ℝ) /
        ((after.timestamp - before.timestamp : Nat) : ℝ) ∧
      GetInterpolatedState renderTime history = some r ∧
      0 ≤ alpha ∧ alpha ≤ 1 ∧
      r.position = before.position +
        Point.scale (after.position - before.position) alpha ∧
      Point.length (r.position - before.position) =
        alpha * Point.length (after.position - before.position) ∧
      r.velocity = before.velocity +
        Point.scale (after.velocity - before.velocity) alpha ∧
      (∃ d : ℝ, r.facing = before.facing + d * alpha ∧ |d| ≤ 180 ∧
        ∃ k : ℤ, d = after.facing - before.facing + 360 * k) := by
  obtain ⟨hb1, hb2⟩ := findBracket_bounds hfind
  have hlen := findBracket_length hfind
  have hdne : ¬ after.timestamp - before.timestamp = 0 := by omega
  have halpha0 : (0 : ℝ) ≤ ((renderTime - before.timestamp : Nat) : ℝ) /
      ((after.timestamp - before.timestamp : Nat) : ℝ) :=
    div_nonneg (Nat.cast_nonneg _) (Nat.cast_nonneg _)
  have hden : (0 : ℝ) < ((after.timestamp - before.timestamp : Nat) : ℝ) := by
    rw [Nat.cast_pos]
    omega
  have halpha1 : ((renderTime - before.timestamp : Nat) : ℝ) /
      ((after.timestamp - before.timestamp : Nat) : ℝ) ≤ 1 := by
    rw [div_le_one hden, Nat.cast_le]
    omega
  have hclamp : max 0 (min 1 (((renderTime - before.timestamp : Nat) : ℝ) /
      ((after.timestamp - before.timestamp : Nat) : ℝ))) =
      ((renderTime - before.timestamp : Nat) : ℝ) /
        ((after.timestamp - before.timestamp : Nat) : ℝ) := by
    rw [min_eq_right halpha1, max_eq_right halpha0]
  refine ⟨Interpolate before after (((renderTime - before.timestamp : Nat) : ℝ) /
    ((after.timestamp - before.timestamp : Nat) : ℝ)), _, rfl, ?_, halpha0,
    halpha1, rfl, ?_, rfl, ?_⟩
  · unfold GetInterpolatedState
    rw [if_neg (by omega), hfind]
    dsimp only
    rw [if_neg hdne, hclamp]
  · rw [show Interpolate before after (((renderTime - before.timestamp : Nat) : ℝ) /
        ((after.timestamp - before.timestamp : Nat) : ℝ)) =
      Interpolate before after (((renderTime - before.timestamp : Nat) : ℝ) /
        ((after.timestamp - before.timestamp : Nat) : ℝ)) from rfl]
    have hpos : (Interpolate before after
        (((renderTime - before.timestamp : Nat) : ℝ) /
          ((after.timestamp - before.timestamp : Nat) : ℝ))).position -
        before.position =
        Point.scale (after.position - before.position)
          (((renderTime - before.timestamp : Nat) : ℝ) /
            ((after.timestamp - before.timestamp : Nat) : ℝ)) := by
      show before.position + Point.scale (after.position - before.position) _ -
        before.position = Point.scale (after.position - before.position) _
      exact add_sub_cancel_left _ _
    rw [hpos, Point.length_scale _ _ halpha0]
  · set alpha := ((renderTime - before.timestamp : Nat) : ℝ) /
      ((after.timestamp - before.timestamp : Nat) : ℝ) with halphadef
    set diff0 := after.facing - before.facing with hdiff0
    by_cases hgt : diff0 > 180
    · refine ⟨diff0 - 360, ?_, by rw [abs_le]; constructor <;> nlinarith, -1, by ring⟩
      show before.facing + (if diff0 > 180 then diff0 - 360
        else if diff0 < -180 then diff0 + 360 else diff0) * alpha =
        before.facing + (diff0 - 360) * alpha
      rw [if_pos hgt]
    · by_cases hlt : diff0 < -180
      · refine ⟨diff0 + 360, ?_, by rw [abs_le]; constructor <;> nlinarith, 1, by ring⟩
        show before.facing + (if diff0 > 180 then diff0 - 360
          else if diff0 < -180 then diff0 + 360 else diff0) * alpha =
          before.facing + (diff0 + 360) * alpha
        rw [if_neg hgt, if_pos hlt]
      · refine ⟨diff0, ?_, by rw [abs_le]; constructor <;> nlinarith, 0, by ring⟩
        show before.facing + (if diff0 > 180 then diff0 - 360
          else if diff0 < -180 then diff0 + 360 else diff0) * alpha =
          before.facing + diff0 * alpha
        rw [if_neg hgt, if_neg hlt]

/-- The spec's S5 scenario: a sample at 1000 ms at position (0, 0) … -/
def s5b : EntityState :=
  ⟨0, ((0 : ℝ), (0 : ℝ)), ((0 : ℝ), (0 : ℝ)), 0, 1000⟩

/-- … and a sample at 1100 ms at position (10, 0). -/
def s5a : EntityState :=
  ⟨0, ((10 : ℝ), (0 : ℝ)), ((0 : ℝ), (0 : ℝ)), 0, 1100⟩

/-- C6 witness (the spec's scenario S5): render time 1050 ms between
samples at 1000 ms/(0,0) and 1100 ms/(10,0) gives α = 1/2; the result sits
at (5, 0), halfway along the segment. -/
theorem getInterpolatedState_bracket_witness :
    ∃ r, GetInterpolatedState 1050 [s5b, s5a] = some r ∧
      Point.length (r.position - s5b.position) =
        (1 / 2 : ℝ) * Point.length (s5a.position - s5b.position) ∧
      r.position = ((5 : ℝ), (0 : ℝ)) := by
  obtain ⟨r, alpha, halpha, hget, h0, h1, hpos, hdist, hvel, hfac⟩ :=
    getInterpolatedState_bracket 1050 [s5b, s5a] s5b s5a rfl
      (by norm_num [s5b, s5a]) (by norm_num [s5b]) (by norm_num [s5b])
      (by norm_num [s5a]) (by norm_num [s5a])
  have ha : alpha = 1 / 2 := by
    rw [halpha]
    norm_num [s5b, s5a]
  refine ⟨r, hget, ?_, ?_⟩
  · rw [hdist, ha]
  · rw [hpos, ha]
    show s5b.position + Point.scale (s5a.position - s5b.position) (1 / 2) =
      ((5 : ℝ), (0 : ℝ))
    apply Prod.ext <;> norm_num [s5b, s5a, Point.scale]

end ES
